import Mathlib

/-!
Shallow embedding of the MAKER-Council voting consensus engine
(`src/server.py`) and verification of its specification claims.

Modelling conventions:
* Python `dict[str, int]` tallies become insertion-ordered association
  lists `List (String × Nat)`; `dict.get(k, 0)` becomes `getVote`,
  `defaultdict` increment becomes `bumpVote` (replace-in-place or append).
* Wall-clock time (`time.time()`) is passed explicitly as a rational
  `now` argument; `temperature`, timestamps and TTLs are rationals
  (the source only compares them, never does float-specific arithmetic).
* The SHA-256 key digest of `ResponseCache._make_key` is an abstract
  parameter `hash : String → String`; everything else of the key
  computation (the `f"{model}:{system}:{prompt}"` content and the
  `temperature > 0` guard) is modelled directly.
* The asynchronous batched sampler is modelled by an oracle
  `Nat → BackendOutcome` giving each dispatched attempt's backend result
  (a successful `(text, tokens)` pair, or `err` for any exception caught
  by `sample_vote`'s `except Exception` handler), plus a deterministic
  fold over per-wave completion events.  Completion-order nondeterminism
  is absorbed into the oracle: theorems quantify over every oracle.
* The `while` batch loop recurses on an explicit fuel argument equal to
  `max_rounds`; with `batch_size ≥ 1` every wave strictly decreases the
  remaining-sample budget, so the fuel is never exhausted (the only
  divergence is `batch_size = 0`, where the Python loop never ends).
-/

namespace MakerCouncil

/-- Python `str.strip()`: drop whitespace from both ends.  (Defined over the
character list so that the kernel can evaluate it on concrete strings.) -/
def pyStrip (s : String) : String :=
  String.mk (((s.data.dropWhile Char.isWhitespace).reverse.dropWhile Char.isWhitespace).reverse)

/-- Stable insertion of `x` into a list: `x` goes in front of the first
element it compares `le` to, so equal keys keep their original order. -/
def insertLe {α : Type} (le : α → α → Bool) (x : α) : List α → List α
  | [] => [x]
  | y :: ys => if le x y then x :: y :: ys else y :: insertLe le x ys

/-- Stable sort by `le` (Python's `sorted` is a stable ascending sort). -/
def sortLe {α : Type} (le : α → α → Bool) : List α → List α
  | [] => []
  | x :: xs => insertLe le x (sortLe le xs)

/-- Result record of `check_red_flags` (class `RedFlagResult`). -/
structure RedFlagResult where
  is_valid : Bool
  reason : Option String
  content : String
deriving Repr, DecidableEq

/-- Embedding of `check_red_flags(response, num_tokens, max_tokens)`
(src/server.py lines 314-336): invalid when the token count exceeds the
threshold or the response is empty after trimming. -/
def check_red_flags (response : String) (num_tokens : Nat) (max_tokens : Nat) : RedFlagResult :=
  if num_tokens > max_tokens then
    { is_valid := false
      reason := some ("Resposta muito longa (" ++ toString num_tokens ++ " tokens > " ++
        toString max_tokens ++ ")")
      content := "" }
  else if pyStrip response = "" then
    { is_valid := false, reason := some "Resposta vazia", content := "" }
  else
    { is_valid := true, reason := none, content := response }

/-- A vote tally: insertion-ordered association list mirroring the Python
`dict[str, int]` built by `defaultdict(int)`. -/
abbrev Tally := List (String × Nat)

/-- Embedding of `votes.get(candidate, 0)`. -/
def getVote (votes : Tally) (c : String) : Nat :=
  match votes.find? (fun kv => kv.1 == c) with
  | some kv => kv.2
  | none => 0

/-- Embedding of `max((v for key, v in votes.items() if key != candidate), default=0)`
from `check_and_set_winner`. -/
def maxOther (votes : Tally) (c : String) : Nat :=
  (votes.filter (fun kv => kv.1 != c)).foldr (fun kv m => max kv.2 m) 0

/-- Embedding of `state.votes[canonical] += 1` on the defaultdict: bump the
existing entry in place, or append a fresh entry with count 1. -/
def bumpVote (votes : Tally) (c : String) : Tally :=
  if (votes.find? (fun kv => kv.1 == c)).isSome then
    votes.map (fun kv => if kv.1 == c then (kv.1, kv.2 + 1) else kv)
  else
    votes ++ [(c, 1)]

/-- Embedding of `max(state.votes.items(), key=lambda x: x[1])[0]`: Python's
`max` keeps the first maximal item in iteration (insertion) order. -/
def pluralityWinner (votes : Tally) : String :=
  match votes with
  | [] => ""
  | kv :: rest => (rest.foldl (fun best x => if x.2 > best.2 then x else best) kv).1

/-- State of class `VotingController`: the optional winner and the
`asyncio.Event` terminated flag (src/server.py lines 352-389).  The
`asyncio.Lock` is not represented: within one run the fold-and-check events
are already serialized, which is what the lock enforces. -/
structure VotingController where
  winner : Option String
  terminated : Bool
deriving Repr, DecidableEq

/-- A freshly constructed `VotingController()`. -/
def initController : VotingController :=
  { winner := none, terminated := false }

/-- Embedding of `VotingController.check_and_set_winner(candidate, votes, k)`
(src/server.py lines 368-384): returns the Python return value together with
the controller state after the call. -/
def check_and_set_winner (ctrl : VotingController) (candidate : String) (votes : Tally)
    (k : Nat) : Bool × VotingController :=
  if ctrl.terminated then (false, ctrl)
  else if getVote votes candidate ≥ k + maxOther votes candidate then
    (true, { winner := some candidate, terminated := true })
  else (false, ctrl)

/-- Embedding of `VotingController.terminate(winner)` (src/server.py lines
386-389): unconditionally installs the winner and sets the flag. -/
def terminate (ctrl : VotingController) (w : String) : VotingController :=
  { winner := some w, terminated := true }

/-- Arguments of one `check_and_set_winner` call. -/
structure CheckCall where
  candidate : String
  votes : Tally
  k : Nat
deriving Repr, DecidableEq

/-- Runs a sequence of `check_and_set_winner` calls on a controller,
returning the final controller and the list of boolean returns. -/
def runChecks : VotingController → List CheckCall → VotingController × List Bool
  | ctrl, [] => (ctrl, [])
  | ctrl, call :: rest =>
    let r := check_and_set_winner ctrl call.candidate call.votes call.k
    let t := runChecks r.2 rest
    (t.1, r.1 :: t.2)

/-- Per-run statistics record (dataclass `VotingState`); the wall-clock
`elapsed_time` field is not modelled. -/
structure VotingState where
  votes : Tally
  total_samples : Nat
  valid_samples : Nat
  red_flagged : Nat
  batch_rounds : Nat
  early_terminated : Bool
deriving Repr, DecidableEq

/-- A freshly constructed `VotingState()`. -/
def initState : VotingState :=
  { votes := [], total_samples := 0, valid_samples := 0, red_flagged := 0
    batch_rounds := 0, early_terminated := false }

/-- Outcome of one backend call inside `sample_vote`: a successful
`(text, num_tokens)` response, or `err` for any exception reaching the
`except Exception` handler (transport failure, timeout, rate limit). -/
inductive BackendOutcome where
  | ok (text : String) (tokens : Nat)
  | err
deriving Repr, DecidableEq

/-- Body of `sample_vote` after its early-termination short-circuit
(src/server.py lines 438-460): absorb backend errors, apply
`check_red_flags`, extract the canonical answer, reject an empty canonical
form.  Returns the `(canonical, is_valid)` pair of the Python function. -/
def sampleVoteBody (extract : String → String) (maxtok : Nat) (o : BackendOutcome) :
    Option String × Bool :=
  match o with
  | .err => (none, false)
  | .ok text tokens =>
    if (check_red_flags text tokens maxtok).is_valid = false then (none, false)
    else
      let canonical := extract text
      if canonical = "" then (none, false) else (some canonical, true)

/-- Full `sample_vote(sample_id, use_temp)` (src/server.py lines 433-460),
including the short-circuit that skips the backend call when the
controller is already terminated and early termination is enabled.
`terminated` is the controller flag observed when the task starts. -/
def sample_vote (et : Bool) (terminated : Bool) (extract : String → String) (maxtok : Nat)
    (o : BackendOutcome) : Option String × Bool :=
  if terminated && et then (none, false) else sampleVoteBody extract maxtok o

/-- Loop-carried state of one wave's fold: the statistics, the controller
and the remaining-sample budget `samples_remaining`. -/
structure FoldState where
  st : VotingState
  ctrl : VotingController
  rem : Nat
deriving Repr, DecidableEq

/-- Early-termination consumption of one wave's completions (src/server.py
lines 494-533): completion events are folded one at a time; once the
controller is terminated the still-pending attempts are cancelled and every
later (or skipped) result is discarded without touching any counter. -/
def foldET (k : Nat) : FoldState → List (Option String × Bool) → FoldState
  | f, [] => f
  | f, r :: rest =>
    if f.ctrl.terminated then f
    else
      let st1 : VotingState := { f.st with total_samples := f.st.total_samples + 1 }
      let rem1 := f.rem - 1
      match r with
      | (some c, true) =>
        if c = "" then
          foldET k { st := { st1 with red_flagged := st1.red_flagged + 1 }, ctrl := f.ctrl, rem := rem1 } rest
        else
          let st2 : VotingState := { st1 with valid_samples := st1.valid_samples + 1
                                              votes := bumpVote st1.votes c }
          let res := check_and_set_winner f.ctrl c st2.votes k
          if res.1 then
            { st := { st2 with early_terminated := true }, ctrl := res.2, rem := rem1 }
          else
            foldET k { st := st2, ctrl := res.2, rem := rem1 } rest
      | _ =>
        foldET k { st := { st1 with red_flagged := st1.red_flagged + 1 }, ctrl := f.ctrl, rem := rem1 } rest

/-- Non-early-termination consumption of one wave (src/server.py lines
534-555): `asyncio.gather` keeps task order, every result of the wave is
folded, `check_and_set_winner` is invoked for bookkeeping only.  (The
`isinstance(result, Exception)` arm is unreachable: `sample_vote` catches
every exception itself and nothing is cancelled in this mode.) -/
def foldAll (k : Nat) : FoldState → List (Option String × Bool) → FoldState
  | f, [] => f
  | f, r :: rest =>
    let st1 : VotingState := { f.st with total_samples := f.st.total_samples + 1 }
    let rem1 := f.rem - 1
    match r with
    | (some c, true) =>
      if c = "" then
        foldAll k { st := { st1 with red_flagged := st1.red_flagged + 1 }, ctrl := f.ctrl, rem := rem1 } rest
      else
        let st2 : VotingState := { st1 with valid_samples := st1.valid_samples + 1
                                            votes := bumpVote st1.votes c }
        let res := check_and_set_winner f.ctrl c st2.votes k
        foldAll k { st := st2, ctrl := res.2, rem := rem1 } rest
    | _ =>
      foldAll k { st := { st1 with red_flagged := st1.red_flagged + 1 }, ctrl := f.ctrl, rem := rem1 } rest

/-- Loop-carried state of the batch loop: statistics, controller, the
index of the next oracle attempt to dispatch (attempt 0 is the initial
deterministic sample) and `samples_remaining`. -/
structure LoopState where
  st : VotingState
  ctrl : VotingController
  idx : Nat
  rem : Nat
deriving Repr, DecidableEq

/-- Results of the `w` tasks of one wave (`tasks = [asyncio.create_task
(sample_vote(i, temperature)) for i in range(current_batch_size)]`): every
task of a wave is created, and starts, while the loop guard still holds, so
each observes the controller flag `term` current at dispatch. -/
def waveResults (oracle : Nat → BackendOutcome) (extract : String → String)
    (maxtok : Nat) (et : Bool) (term : Bool) (idx w : Nat) :
    List (Option String × Bool) :=
  (List.range w).map (fun i => sample_vote et term extract maxtok (oracle (idx + i)))

/-- Consumption of one wave: the as-completed fold when early termination
is enabled, the full `asyncio.gather` fold when it is disabled. -/
def waveFold (k : Nat) (et : Bool) (f : FoldState)
    (results : List (Option String × Bool)) : FoldState :=
  if et then foldET k f results else foldAll k f results

/-- The batch loop `while samples_remaining > 0 and not controller.is_terminated`
(src/server.py lines 482-559).  Each wave dispatches
`min(batch_size, samples_remaining)` attempts.  Recursion is on explicit
fuel (see file header). -/
def runWaves (oracle : Nat → BackendOutcome) (extract : String → String)
    (k maxtok bs : Nat) (et : Bool) : Nat → LoopState → LoopState
  | 0, ls => ls
  | fuel + 1, ls =>
    if 0 < ls.rem ∧ ls.ctrl.terminated = false then
      let st1 : VotingState := { ls.st with batch_rounds := ls.st.batch_rounds + 1 }
      let w := min bs ls.rem
      let results := waveResults oracle extract maxtok et ls.ctrl.terminated ls.idx w
      let f := waveFold k et { st := st1, ctrl := ls.ctrl, rem := ls.rem } results
      runWaves oracle extract k maxtok bs et fuel
        { st := f.st, ctrl := f.ctrl, idx := ls.idx + w, rem := f.rem }
    else ls

/-- Plurality fallback `max(state.votes.items(), key=lambda x: x[1])[0]`
guarded by `if state.votes:` (src/server.py lines 567-571). -/
def votingFallback (st : VotingState) : String :=
  match st.votes with
  | [] => ""
  | _ => pluralityWinner st.votes

/-- Final winner selection (src/server.py lines 563-571): `if controller.winner:`
is a Python truthiness test, so both `None` and the empty string fall
through to the plurality fallback. -/
def votingFinish (st : VotingState) (ctrl : VotingController) : String :=
  match ctrl.winner with
  | some w => if w = "" then votingFallback st else w
  | none => votingFallback st

/-- Full embedding of `first_to_ahead_by_k_voting` (src/server.py lines
392-571), returning the winner together with the final loop state (the
statistics plus the loop variables `idx` — attempts dispatched — and
`samples_remaining`).  `oracle i` is the backend outcome of the i-th
dispatched attempt; attempt 0 is the initial deterministic
temperature-zero sample.  `extract` is the caller-supplied
`extract_answer`; the Python default `lambda x: x.strip()` is `pyStrip`. -/
def first_to_ahead_by_k_votingFull (oracle : Nat → BackendOutcome)
    (extract : String → String) (k max_rounds bs maxtok : Nat) (et : Bool) :
    String × LoopState :=
  let fr := sample_vote et initController.terminated extract maxtok (oracle 0)
  let st1 : VotingState := { initState with total_samples := initState.total_samples + 1 }
  match fr with
  | (some c, true) =>
    if c = "" then
      let ls := runWaves oracle extract k maxtok bs et max_rounds
        { st := { st1 with red_flagged := st1.red_flagged + 1 }, ctrl := initController
          idx := 1, rem := max_rounds - 1 }
      (votingFinish ls.st ls.ctrl, ls)
    else
      let st2 : VotingState := { st1 with valid_samples := st1.valid_samples + 1
                                          votes := bumpVote st1.votes c }
      let res := check_and_set_winner initController c st2.votes k
      if res.1 then
        (c, { st := { st2 with early_terminated := true }, ctrl := res.2
              idx := 1, rem := max_rounds - 1 })
      else
        let ls := runWaves oracle extract k maxtok bs et max_rounds
          { st := st2, ctrl := res.2, idx := 1, rem := max_rounds - 1 }
        (votingFinish ls.st ls.ctrl, ls)
  | _ =>
    let ls := runWaves oracle extract k maxtok bs et max_rounds
      { st := { st1 with red_flagged := st1.red_flagged + 1 }, ctrl := initController
        idx := 1, rem := max_rounds - 1 }
    (votingFinish ls.st ls.ctrl, ls)

/-- The `(winner, state)` pair actually returned by
`first_to_ahead_by_k_voting`. -/
def first_to_ahead_by_k_voting (oracle : Nat → BackendOutcome)
    (extract : String → String) (k max_rounds bs maxtok : Nat) (et : Bool) :
    String × VotingState :=
  let r := first_to_ahead_by_k_votingFull oracle extract k max_rounds bs maxtok et
  (r.1, r.2.st)

/-- Entry of the response cache (dataclass `CacheEntry`). -/
structure CacheEntry where
  value : String
  tokens : Nat
  timestamp : ℚ
deriving Repr, DecidableEq

/-- Embedding of `CacheEntry.is_expired(ttl)`; `now` stands for the
`time.time()` call. -/
def CacheEntry.is_expired (e : CacheEntry) (ttl : ℚ) (now : ℚ) : Bool :=
  decide (now - e.timestamp > ttl)

/-- State of class `ResponseCache`: the insertion-ordered key/entry map and
the configuration and counters. -/
structure ResponseCache where
  entries : List (String × CacheEntry)
  max_size : Nat
  ttl : ℚ
  hits : Nat
  misses : Nat
deriving Repr, DecidableEq

/-- A freshly constructed `ResponseCache(max_size, ttl)`. -/
def emptyCache (max_size : Nat) (ttl : ℚ) : ResponseCache :=
  { entries := [], max_size := max_size, ttl := ttl, hits := 0, misses := 0 }

/-- Embedding of `ResponseCache._make_key` (src/server.py lines 86-92):
empty sentinel key for `temperature > 0`, otherwise the digest of
`f"{model}:{system}:{prompt}"`; the SHA-256 digest is the abstract
parameter `hash`. -/
def make_key (hash : String → String) (model system prompt : String) (temperature : ℚ) :
    String :=
  if temperature > 0 then "" else hash (model ++ ":" ++ system ++ ":" ++ prompt)

/-- Lookup `self._cache.get(key)` on the association list. -/
def cacheLookup (entries : List (String × CacheEntry)) (key : String) : Option CacheEntry :=
  match entries.find? (fun kv => kv.1 == key) with
  | some kv => some kv.2
  | none => none

/-- Embedding of `ResponseCache.get` (src/server.py lines 94-108), returning
the Python return value together with the cache state after the call (hit
counter, or expired-entry deletion plus miss counter). -/
def ResponseCache.get (hash : String → String) (c : ResponseCache) (now : ℚ)
    (model system prompt : String) (temperature : ℚ) :
    Option (String × Nat) × ResponseCache :=
  let key := make_key hash model system prompt temperature
  if key = "" then (none, c)
  else
    match cacheLookup c.entries key with
    | some e =>
      if e.is_expired c.ttl now = false then
        (some (e.value, e.tokens), { c with hits := c.hits + 1 })
      else
        (none, { c with entries := c.entries.eraseP (fun kv => kv.1 == key)
                        misses := c.misses + 1 })
    | none => (none, { c with misses := c.misses + 1 })

/-- Embedding of `ResponseCache._cleanup` (src/server.py lines 122-133):
drop every TTL-expired entry, then, if still at capacity, drop the oldest
half by timestamp.  Per-key `del` on the unique-keyed dict is modelled by
filtering the listed keys out. -/
def ResponseCache.cleanup (c : ResponseCache) (now : ℚ) : ResponseCache :=
  let kept := c.entries.filter (fun kv => !(kv.2.is_expired c.ttl now))
  if kept.length ≥ c.max_size then
    let sorted := sortLe (fun a b => decide (a.2.timestamp ≤ b.2.timestamp)) kept
    let removed := (sorted.take (kept.length / 2)).map (fun kv => kv.1)
    { c with entries := kept.filter (fun kv => !(removed.contains kv.1)) }
  else
    { c with entries := kept }

/-- Python `self._cache[key] = entry` on the insertion-ordered dict:
replace in place if the key exists, otherwise append. -/
def dictInsert (entries : List (String × CacheEntry)) (key : String) (e : CacheEntry) :
    List (String × CacheEntry) :=
  if (entries.find? (fun kv => kv.1 == key)).isSome then
    entries.map (fun kv => if kv.1 == key then (key, e) else kv)
  else
    entries ++ [(key, e)]

/-- Embedding of `ResponseCache.set` (src/server.py lines 110-120). -/
def ResponseCache.set (hash : String → String) (c : ResponseCache) (now : ℚ)
    (model system prompt : String) (temperature : ℚ) (value : String) (tokens : Nat) :
    ResponseCache :=
  let key := make_key hash model system prompt temperature
  if key = "" then c
  else
    let c1 := if c.entries.length ≥ c.max_size then c.cleanup now else c
    { c1 with entries := dictInsert c1.entries key { value := value, tokens := tokens, timestamp := now } }

/-- Cache interaction of `AnthropicClient.create_message` /
`OpenAICompatibleClient.create_message` (src/server.py lines 201-232 and
252-284): consult the cache first and return a hit; otherwise call the
backend (whose successful `(text, tokens)` result is the `backend`
argument) and store the response in the cache unconditionally. -/
def create_message_cache (hash : String → String) (c : ResponseCache) (now : ℚ)
    (model system prompt : String) (temperature : ℚ) (backend : String × Nat) :
    (String × Nat) × ResponseCache :=
  match ResponseCache.get hash c now model system prompt temperature with
  | (some cached, c1) => (cached, c1)
  | (none, c1) =>
    (backend, ResponseCache.set hash c1 now model system prompt temperature backend.1 backend.2)

/-- One observable operation on the shared `ResponseCache`. -/
inductive CacheOp where
  | getOp (now : ℚ) (model system prompt : String) (temperature : ℚ)
  | setOp (now : ℚ) (model system prompt : String) (temperature : ℚ)
      (value : String) (tokens : Nat)

/-- Runs a sequence of cache operations. -/
def runCacheOps (hash : String → String) : ResponseCache → List CacheOp → ResponseCache
  | c, [] => c
  | c, op :: rest =>
    let c1 := match op with
      | .getOp now m s p T => (ResponseCache.get hash c now m s p T).2
      | .setOp now m s p T v tk => ResponseCache.set hash c now m s p T v tk
    runCacheOps hash c1 rest


/-- Helper: a `check_and_set_winner` call that returns false leaves the
controller unchanged. -/
theorem check_false_ctrl (ctrl : VotingController) (c : String) (votes : Tally) (k : Nat)
    (h : (check_and_set_winner ctrl c votes k).1 = false) :
    (check_and_set_winner ctrl c votes k).2 = ctrl := by
  unfold check_and_set_winner at *
  split_ifs at h ⊢ <;> simp_all

/-- Helper: a `check_and_set_winner` call that returns true installs the
candidate and terminates. -/
theorem check_true_ctrl (ctrl : VotingController) (c : String) (votes : Tally) (k : Nat)
    (h : (check_and_set_winner ctrl c votes k).1 = true) :
    (check_and_set_winner ctrl c votes k).2 = { winner := some c, terminated := true } := by
  unfold check_and_set_winner at *
  split_ifs at h ⊢ <;> simp_all

/-- Helper: on a terminated controller `check_and_set_winner` is a no-op
returning false. -/
theorem check_terminated_noop (ctrl : VotingController) (c : String) (votes : Tally) (k : Nat)
    (h : ctrl.terminated = true) :
    check_and_set_winner ctrl c votes k = (false, ctrl) := by
  unfold check_and_set_winner
  simp [h]

/-- Helper: unfolding one step of `runChecks`. -/
theorem runChecks_cons (ctrl : VotingController) (call : CheckCall) (rest : List CheckCall)
    (b : Bool) (ctrl1 : VotingController)
    (hr : check_and_set_winner ctrl call.candidate call.votes call.k = (b, ctrl1)) :
    runChecks ctrl (call :: rest) =
      ((runChecks ctrl1 rest).1, b :: (runChecks ctrl1 rest).2) := by
  simp only [runChecks, hr]

/-- Helper: once terminated, a whole sequence of `check_and_set_winner`
calls changes nothing and returns all-false. -/
theorem runChecks_terminated (ctrl : VotingController) (h : ctrl.terminated = true) :
    ∀ calls : List CheckCall, runChecks ctrl calls = (ctrl, calls.map (fun _ => false)) := by
  intro calls
  induction calls with
  | nil => rfl
  | cons call rest ih =>
    rw [runChecks_cons ctrl call rest false ctrl
      (check_terminated_noop ctrl call.candidate call.votes call.k h), ih]
    simp

/-- Helper: starting from an unterminated controller, at most one call in
a sequence of `check_and_set_winner` calls returns true. -/
theorem runChecks_count (calls : List CheckCall) :
    ∀ ctrl : VotingController, ctrl.terminated = false →
      ((runChecks ctrl calls).2.count true) ≤ 1 := by
  induction calls with
  | nil => intro ctrl _; simp [runChecks]
  | cons call rest ih =>
    intro ctrl h
    rcases hr : check_and_set_winner ctrl call.candidate call.votes call.k with ⟨b, ctrl1⟩
    rw [runChecks_cons ctrl call rest b ctrl1 hr]
    cases b with
    | false =>
      have hc : ctrl1 = ctrl := by
        have h2 := check_false_ctrl ctrl call.candidate call.votes call.k (by rw [hr])
        rw [hr] at h2; exact h2
      rw [hc]
      simpa [List.count_cons] using ih ctrl h
    | true =>
      have hc : ctrl1 = { winner := some call.candidate, terminated := true } := by
        have h2 := check_true_ctrl ctrl call.candidate call.votes call.k (by rw [hr])
        rw [hr] at h2; exact h2
      rw [hc, runChecks_terminated _ rfl rest]
      simp [List.count_cons, List.count_replicate]

/-- Helper: the invariant "terminated implies a winner is installed" is
preserved by any sequence of `check_and_set_winner` calls. -/
theorem runChecks_winner_isSome (calls : List CheckCall) :
    ∀ ctrl : VotingController, (ctrl.terminated = true → ctrl.winner.isSome = true) →
      ((runChecks ctrl calls).1.terminated = true →
        (runChecks ctrl calls).1.winner.isSome = true) := by
  induction calls with
  | nil => intro ctrl h; simpa [runChecks] using h
  | cons call rest ih =>
    intro ctrl h
    rcases hr : check_and_set_winner ctrl call.candidate call.votes call.k with ⟨b, ctrl1⟩
    rw [runChecks_cons ctrl call rest b ctrl1 hr]
    cases b with
    | false =>
      have hc : ctrl1 = ctrl := by
        have h2 := check_false_ctrl ctrl call.candidate call.votes call.k (by rw [hr])
        rw [hr] at h2; exact h2
      rw [hc]
      exact ih ctrl h
    | true =>
      have hc : ctrl1 = { winner := some call.candidate, terminated := true } := by
        have h2 := check_true_ctrl ctrl call.candidate call.votes call.k (by rw [hr])
        rw [hr] at h2; exact h2
      rw [hc]
      exact ih _ (fun _ => rfl)

/-- C1: on an unterminated controller, `check_and_set_winner(c, tally, k)`
returns true iff `tally[c] ≥ k + max(tally[o] for o ≠ c, default 0)`, and
on true it installs `c` as winner and marks the controller terminated; on
an already-terminated controller it returns false and changes nothing. -/
theorem C1_check_and_set_winner_margin (ctrl : VotingController) (c : String)
    (votes : Tally) (k : Nat) :
    (ctrl.terminated = false →
      ((check_and_set_winner ctrl c votes k).1 = true ↔
        getVote votes c ≥ k + maxOther votes c) ∧
      ((check_and_set_winner ctrl c votes k).1 = true →
        (check_and_set_winner ctrl c votes k).2 =
          { winner := some c, terminated := true })) ∧
    (ctrl.terminated = true → check_and_set_winner ctrl c votes k = (false, ctrl)) := by
  constructor
  · intro h
    constructor
    · unfold check_and_set_winner
      by_cases hc : getVote votes c ≥ k + maxOther votes c <;> simp [h, hc]
    · exact check_true_ctrl ctrl c votes k
  · exact check_terminated_noop ctrl c votes k

/-- Witness for C1 at the spec's own example: tally `{"4": 3, "3": 1}`,
k = 2, threshold 2 + 1 = 3, candidate "4" wins. -/
theorem C1_check_and_set_winner_margin_witness :
    (check_and_set_winner initController "4" [("4", 3), ("3", 1)] 2).1 = true ∧
    (check_and_set_winner initController "4" [("4", 3), ("3", 1)] 2).2 =
      { winner := some "4", terminated := true } := by
  have h := C1_check_and_set_winner_margin initController "4" [("4", 3), ("3", 1)] 2
  have h1 := (h.1 rfl).1.mpr (by decide)
  exact ⟨h1, (h.1 rfl).2 h1⟩

/-- C2 counterexample: `terminate` does not check the flag, so after
`terminate("a")` the controller is terminated with winner "a", yet a second
`terminate("b")` call still mutates the winner (and `terminate("")`
installs an empty winner) — refuting winner immutability, the
at-most-one-success guarantee and winner non-emptiness as claimed. -/
theorem C2_terminate_overwrites_counterexample :
    (terminate initController "a").terminated = true ∧
    (terminate initController "a").winner = some "a" ∧
    (terminate (terminate initController "a") "b").winner = some "b" ∧
    (terminate initController "").terminated = true ∧
    (terminate initController "").winner = some "" :=
  ⟨rfl, rfl, rfl, rfl, rfl⟩

/-- C2 (amended): restricted to `check_and_set_winner` calls the claimed
invariants hold — once terminated every later call returns false and
changes nothing, at most one call in any sequence returns true, and a
terminated controller always carries an installed winner; `terminate`, by
contrast, unconditionally installs its argument and sets the flag even
when already terminated. -/
theorem C2_controller_invariants_amended :
    (∀ (ctrl : VotingController) (calls : List CheckCall), ctrl.terminated = true →
      runChecks ctrl calls = (ctrl, calls.map (fun _ => false))) ∧
    (∀ (ctrl : VotingController) (calls : List CheckCall), ctrl.terminated = false →
      ((runChecks ctrl calls).2.count true) ≤ 1) ∧
    (∀ (ctrl : VotingController) (calls : List CheckCall),
      (ctrl.terminated = true → ctrl.winner.isSome = true) →
      ((runChecks ctrl calls).1.terminated = true →
        (runChecks ctrl calls).1.winner.isSome = true)) ∧
    (∀ (ctrl : VotingController) (w : String),
      terminate ctrl w = { winner := some w, terminated := true }) := by
  refine ⟨?_, ?_, ?_, ?_⟩
  · intro ctrl calls h; exact runChecks_terminated ctrl h calls
  · intro ctrl calls h; exact runChecks_count calls ctrl h
  · intro ctrl calls h; exact runChecks_winner_isSome calls ctrl h
  · intro ctrl w; rfl

/-- Witness for C2 (amended): a terminated controller is untouched by a
concrete call sequence, and a concrete two-call sequence from a fresh
controller yields at most one success. -/
theorem C2_controller_invariants_amended_witness :
    runChecks { winner := some "x", terminated := true }
        [{ candidate := "a", votes := [], k := 1 }] =
      ({ winner := some "x", terminated := true }, [false]) ∧
    ((runChecks initController
      [{ candidate := "a", votes := [("a", 1)], k := 1 },
       { candidate := "b", votes := [("a", 1), ("b", 1)], k := 1 }]).2.count true) ≤ 1 :=
  ⟨C2_controller_invariants_amended.1 _ _ rfl,
   C2_controller_invariants_amended.2.1 _ _ rfl⟩

theorem foldET_nil (k : Nat) (f : FoldState) : foldET k f [] = f := rfl

theorem foldET_terminated (k : Nat) (f : FoldState) (h : f.ctrl.terminated = true) :
    ∀ rs : List (Option String × Bool), foldET k f rs = f := by
  intro rs
  cases rs with
  | nil => rfl
  | cons r rest => simp [foldET, h]

theorem foldET_cons_red_none (k : Nat) (f : FoldState) (b : Bool)
    (rest : List (Option String × Bool)) (h : f.ctrl.terminated = false) :
    foldET k f (((none : Option String), b) :: rest) =
      foldET k { st := { f.st with total_samples := f.st.total_samples + 1,
                                   red_flagged := f.st.red_flagged + 1 },
                 ctrl := f.ctrl, rem := f.rem - 1 } rest := by
  simp [foldET, h]

theorem foldET_cons_some_false (k : Nat) (f : FoldState) (c : String)
    (rest : List (Option String × Bool)) (h : f.ctrl.terminated = false) :
    foldET k f ((some c, false) :: rest) =
      foldET k { st := { f.st with total_samples := f.st.total_samples + 1,
                                   red_flagged := f.st.red_flagged + 1 },
                 ctrl := f.ctrl, rem := f.rem - 1 } rest := by
  simp [foldET, h]

theorem foldET_cons_some_empty (k : Nat) (f : FoldState)
    (rest : List (Option String × Bool)) (h : f.ctrl.terminated = false) :
    foldET k f ((some "", true) :: rest) =
      foldET k { st := { f.st with total_samples := f.st.total_samples + 1,
                                   red_flagged := f.st.red_flagged + 1 },
                 ctrl := f.ctrl, rem := f.rem - 1 } rest := by
  simp [foldET, h]

theorem foldET_cons_win (k : Nat) (f : FoldState) (c : String)
    (rest : List (Option String × Bool)) (h : f.ctrl.terminated = false) (hc : ¬(c = ""))
    (hwin : (check_and_set_winner f.ctrl c (bumpVote f.st.votes c) k).1 = true) :
    foldET k f ((some c, true) :: rest) =
      { st := { f.st with total_samples := f.st.total_samples + 1,
                          valid_samples := f.st.valid_samples + 1,
                          votes := bumpVote f.st.votes c,
                          early_terminated := true },
        ctrl := (check_and_set_winner f.ctrl c (bumpVote f.st.votes c) k).2,
        rem := f.rem - 1 } := by
  simp [foldET, h, hc, hwin]

theorem foldET_cons_step (k : Nat) (f : FoldState) (c : String)
    (rest : List (Option String × Bool)) (h : f.ctrl.terminated = false) (hc : ¬(c = ""))
    (hnowin : (check_and_set_winner f.ctrl c (bumpVote f.st.votes c) k).1 = false) :
    foldET k f ((some c, true) :: rest) =
      foldET k { st := { f.st with total_samples := f.st.total_samples + 1,
                                   valid_samples := f.st.valid_samples + 1,
                                   votes := bumpVote f.st.votes c },
                 ctrl := (check_and_set_winner f.ctrl c (bumpVote f.st.votes c) k).2,
                 rem := f.rem - 1 } rest := by
  simp [foldET, h, hc, hnowin]

theorem foldAll_nil (k : Nat) (f : FoldState) : foldAll k f [] = f := rfl

theorem foldAll_cons_red_none (k : Nat) (f : FoldState) (b : Bool)
    (rest : List (Option String × Bool)) :
    foldAll k f (((none : Option String), b) :: rest) =
      foldAll k { st := { f.st with total_samples := f.st.total_samples + 1,
                                    red_flagged := f.st.red_flagged + 1 },
                  ctrl := f.ctrl, rem := f.rem - 1 } rest := by
  simp [foldAll]

theorem foldAll_cons_some_false (k : Nat) (f : FoldState) (c : String)
    (rest : List (Option String × Bool)) :
    foldAll k f ((some c, false) :: rest) =
      foldAll k { st := { f.st with total_samples := f.st.total_samples + 1,
                                    red_flagged := f.st.red_flagged + 1 },
                  ctrl := f.ctrl, rem := f.rem - 1 } rest := by
  simp [foldAll]

theorem foldAll_cons_some_empty (k : Nat) (f : FoldState)
    (rest : List (Option String × Bool)) :
    foldAll k f ((some "", true) :: rest) =
      foldAll k { st := { f.st with total_samples := f.st.total_samples + 1,
                                    red_flagged := f.st.red_flagged + 1 },
                  ctrl := f.ctrl, rem := f.rem - 1 } rest := by
  simp [foldAll]

theorem foldAll_cons_valid (k : Nat) (f : FoldState) (c : String)
    (rest : List (Option String × Bool)) (hc : ¬(c = "")) :
    foldAll k f ((some c, true) :: rest) =
      foldAll k { st := { f.st with total_samples := f.st.total_samples + 1,
                                    valid_samples := f.st.valid_samples + 1,
                                    votes := bumpVote f.st.votes c },
                  ctrl := (check_and_set_winner f.ctrl c (bumpVote f.st.votes c) k).2,
                  rem := f.rem - 1 } rest := by
  simp [foldAll, hc]

theorem runWaves_terminated (oracle : Nat → BackendOutcome) (extract : String → String)
    (k maxtok bs : Nat) (et : Bool) (fuel : Nat) (ls : LoopState)
    (h : ls.ctrl.terminated = true) :
    runWaves oracle extract k maxtok bs et fuel ls = ls := by
  cases fuel with
  | zero => rfl
  | succ n => simp [runWaves, h]

theorem foldET_append (k : Nat) (rs1 : List (Option String × Bool)) :
    ∀ (f : FoldState) (rs2 : List (Option String × Bool)),
      (foldET k f rs1).ctrl.terminated = true →
      foldET k f (rs1 ++ rs2) = foldET k f rs1 := by
  induction rs1 with
  | nil =>
    intro f rs2 h
    simp only [List.nil_append, foldET_nil]
    exact foldET_terminated k f h rs2
  | cons r rest ih =>
    intro f rs2 h
    by_cases ht : f.ctrl.terminated = true
    · rw [foldET_terminated k f ht, foldET_terminated k f ht]
    · have ht' : f.ctrl.terminated = false := by simpa using ht
      rw [List.cons_append]
      rcases r with ⟨oc, b⟩
      rcases oc with _ | c
      · rw [foldET_cons_red_none k f b rest ht'] at h
        rw [foldET_cons_red_none k f b (rest ++ rs2) ht',
          foldET_cons_red_none k f b rest ht']
        exact ih _ rs2 h
      · cases b with
        | false =>
          rw [foldET_cons_some_false k f c rest ht'] at h
          rw [foldET_cons_some_false k f c (rest ++ rs2) ht',
            foldET_cons_some_false k f c rest ht']
          exact ih _ rs2 h
        | true =>
          by_cases hc : c = ""
          · subst hc
            rw [foldET_cons_some_empty k f rest ht'] at h
            rw [foldET_cons_some_empty k f (rest ++ rs2) ht',
              foldET_cons_some_empty k f rest ht']
            exact ih _ rs2 h
          · cases hb : (check_and_set_winner f.ctrl c (bumpVote f.st.votes c) k).1 with
            | true =>
              rw [foldET_cons_win k f c (rest ++ rs2) ht' hc hb,
                foldET_cons_win k f c rest ht' hc hb]
            | false =>
              rw [foldET_cons_step k f c rest ht' hc hb] at h
              rw [foldET_cons_step k f c (rest ++ rs2) ht' hc hb,
                foldET_cons_step k f c rest ht' hc hb]
              exact ih _ rs2 h

/-- C3: attempts cancelled (or skipped) after the run's controller
terminates contribute nothing: once the early-termination fold has
terminated the controller, any further completion events are discarded
without changing tally, counters or controller; a fold starting terminated
is the identity; and the batch loop dispatches no further wave once the
controller is terminated. -/
theorem C3_cancelled_attempts_discarded :
    (∀ (k : Nat) (f : FoldState) (rs1 rs2 : List (Option String × Bool)),
      (foldET k f rs1).ctrl.terminated = true →
      foldET k f (rs1 ++ rs2) = foldET k f rs1) ∧
    (∀ (k : Nat) (f : FoldState) (rs : List (Option String × Bool)),
      f.ctrl.terminated = true → foldET k f rs = f) ∧
    (∀ (oracle : Nat → BackendOutcome) (extract : String → String)
      (k maxtok bs : Nat) (et : Bool) (fuel : Nat) (ls : LoopState),
      ls.ctrl.terminated = true →
      runWaves oracle extract k maxtok bs et fuel ls = ls) := by
  refine ⟨?_, ?_, ?_⟩
  · intro k f rs1 rs2 h; exact foldET_append k rs1 f rs2 h
  · intro k f rs h; exact foldET_terminated k f h rs
  · intro oracle extract k maxtok bs et fuel ls h
    exact runWaves_terminated oracle extract k maxtok bs et fuel ls h

/-- Witness for C3 at concrete inputs: a winning completion makes the fold
discard a later completion; a terminated fold and a terminated loop are
no-ops. -/
theorem C3_cancelled_attempts_discarded_witness :
    foldET 1 { st := initState, ctrl := initController, rem := 5 }
        ([(some "a", true)] ++ [(some "b", true)]) =
      foldET 1 { st := initState, ctrl := initController, rem := 5 } [(some "a", true)] ∧
    foldET 1 { st := initState, ctrl := { winner := some "a", terminated := true }, rem := 4 }
        [(some "b", true)] =
      { st := initState, ctrl := { winner := some "a", terminated := true }, rem := 4 } ∧
    runWaves (fun _ => BackendOutcome.err) (fun s => s) 1 750 2 true 3
        { st := initState, ctrl := { winner := some "a", terminated := true },
          idx := 1, rem := 4 } =
      { st := initState, ctrl := { winner := some "a", terminated := true },
        idx := 1, rem := 4 } :=
  ⟨C3_cancelled_attempts_discarded.1 1
      { st := initState, ctrl := initController, rem := 5 }
      [(some "a", true)] [(some "b", true)] (by decide),
   C3_cancelled_attempts_discarded.2.1 1
      { st := initState, ctrl := { winner := some "a", terminated := true }, rem := 4 }
      [(some "b", true)] rfl,
   C3_cancelled_attempts_discarded.2.2 (fun _ => BackendOutcome.err) (fun s => s) 1 750 2 true 3
      { st := initState, ctrl := { winner := some "a", terminated := true },
        idx := 1, rem := 4 } rfl⟩

theorem foldET_allfail (k : Nat) (rs : List (Option String × Bool)) :
    ∀ f : FoldState, (∀ r ∈ rs, r = ((none : Option String), false)) →
      (foldET k f rs).st.votes = f.st.votes ∧
      (foldET k f rs).st.valid_samples = f.st.valid_samples ∧
      (foldET k f rs).ctrl = f.ctrl := by
  induction rs with
  | nil => intro f _; exact ⟨rfl, rfl, rfl⟩
  | cons r rest ih =>
    intro f hall
    have hr : r = ((none : Option String), false) := hall r (List.mem_cons_self r rest)
    subst hr
    by_cases ht : f.ctrl.terminated = true
    · rw [foldET_terminated k f ht]
      exact ⟨rfl, rfl, rfl⟩
    · have ht' : f.ctrl.terminated = false := by simpa using ht
      rw [foldET_cons_red_none k f false rest ht']
      have h2 := ih (FoldState.mk { f.st with total_samples := f.st.total_samples + 1, red_flagged := f.st.red_flagged + 1 } f.ctrl (f.rem - 1)) (fun r hr => hall r (List.mem_cons_of_mem _ hr))
      simpa using h2

theorem foldAll_allfail (k : Nat) (rs : List (Option String × Bool)) :
    ∀ f : FoldState, (∀ r ∈ rs, r = ((none : Option String), false)) →
      (foldAll k f rs).st.votes = f.st.votes ∧
      (foldAll k f rs).st.valid_samples = f.st.valid_samples ∧
      (foldAll k f rs).ctrl = f.ctrl := by
  induction rs with
  | nil => intro f _; exact ⟨rfl, rfl, rfl⟩
  | cons r rest ih =>
    intro f hall
    have hr : r = ((none : Option String), false) := hall r (List.mem_cons_self r rest)
    subst hr
    rw [foldAll_cons_red_none k f false rest]
    have h2 := ih (FoldState.mk { f.st with total_samples := f.st.total_samples + 1, red_flagged := f.st.red_flagged + 1 } f.ctrl (f.rem - 1)) (fun r hr => hall r (List.mem_cons_of_mem _ hr))
    simpa using h2

theorem waveFold_allfail (k : Nat) (et : Bool) (f : FoldState)
    (rs : List (Option String × Bool)) (hall : ∀ r ∈ rs, r = ((none : Option String), false)) :
    (waveFold k et f rs).st.votes = f.st.votes ∧
    (waveFold k et f rs).st.valid_samples = f.st.valid_samples ∧
    (waveFold k et f rs).ctrl = f.ctrl := by
  cases et with
  | true => simpa [waveFold] using foldET_allfail k rs f hall
  | false => simpa [waveFold] using foldAll_allfail k rs f hall

theorem waveResults_allfail (oracle : Nat → BackendOutcome) (extract : String → String)
    (maxtok : Nat) (et : Bool) (idx w : Nat)
    (hfail : ∀ i, sampleVoteBody extract maxtok (oracle i) = (none, false)) :
    ∀ r ∈ waveResults oracle extract maxtok et false idx w,
      r = ((none : Option String), false) := by
  intro r hrm
  rcases List.mem_map.mp hrm with ⟨i, _, hi⟩
  rw [← hi]
  simp [sample_vote, hfail]

theorem runWaves_succ (oracle : Nat → BackendOutcome) (extract : String → String)
    (k maxtok bs : Nat) (et : Bool) (n : Nat) (ls : LoopState)
    (hg : 0 < ls.rem ∧ ls.ctrl.terminated = false) :
    runWaves oracle extract k maxtok bs et (n + 1) ls =
      runWaves oracle extract k maxtok bs et n
        { st := (waveFold k et
            { st := { ls.st with batch_rounds := ls.st.batch_rounds + 1 },
              ctrl := ls.ctrl, rem := ls.rem }
            (waveResults oracle extract maxtok et ls.ctrl.terminated ls.idx (min bs ls.rem))).st,
          ctrl := (waveFold k et
            { st := { ls.st with batch_rounds := ls.st.batch_rounds + 1 },
              ctrl := ls.ctrl, rem := ls.rem }
            (waveResults oracle extract maxtok et ls.ctrl.terminated ls.idx (min bs ls.rem))).ctrl,
          idx := ls.idx + min bs ls.rem,
          rem := (waveFold k et
            { st := { ls.st with batch_rounds := ls.st.batch_rounds + 1 },
              ctrl := ls.ctrl, rem := ls.rem }
            (waveResults oracle extract maxtok et ls.ctrl.terminated ls.idx (min bs ls.rem))).rem } := by
  conv_lhs => rw [runWaves]
  rw [if_pos hg]

theorem runWaves_allfail (oracle : Nat → BackendOutcome) (extract : String → String)
    (k maxtok bs : Nat) (et : Bool)
    (hfail : ∀ i, sampleVoteBody extract maxtok (oracle i) = (none, false)) :
    ∀ (fuel : Nat) (ls : LoopState),
      (runWaves oracle extract k maxtok bs et fuel ls).st.votes = ls.st.votes ∧
      (runWaves oracle extract k maxtok bs et fuel ls).st.valid_samples = ls.st.valid_samples ∧
      (runWaves oracle extract k maxtok bs et fuel ls).ctrl = ls.ctrl := by
  intro fuel
  induction fuel with
  | zero => intro ls; exact ⟨rfl, rfl, rfl⟩
  | succ n ih =>
    intro ls
    by_cases hg : 0 < ls.rem ∧ ls.ctrl.terminated = false
    · rw [runWaves_succ oracle extract k maxtok bs et n ls hg]
      have hres := waveResults_allfail oracle extract maxtok et ls.idx (min bs ls.rem) hfail
      rw [hg.2] at *
      have hw := waveFold_allfail k et
        { st := { ls.st with batch_rounds := ls.st.batch_rounds + 1 },
          ctrl := ls.ctrl, rem := ls.rem }
        (waveResults oracle extract maxtok et false ls.idx (min bs ls.rem)) hres
      have h2 := ih
        { st := (waveFold k et
            { st := { ls.st with batch_rounds := ls.st.batch_rounds + 1 },
              ctrl := ls.ctrl, rem := ls.rem }
            (waveResults oracle extract maxtok et false ls.idx (min bs ls.rem))).st,
          ctrl := (waveFold k et
            { st := { ls.st with batch_rounds := ls.st.batch_rounds + 1 },
              ctrl := ls.ctrl, rem := ls.rem }
            (waveResults oracle extract maxtok et false ls.idx (min bs ls.rem))).ctrl,
          idx := ls.idx + min bs ls.rem,
          rem := (waveFold k et
            { st := { ls.st with batch_rounds := ls.st.batch_rounds + 1 },
              ctrl := ls.ctrl, rem := ls.rem }
            (waveResults oracle extract maxtok et false ls.idx (min bs ls.rem))).rem }
      rcases h2 with ⟨h2a, h2b, h2c⟩
      rcases hw with ⟨hwa, hwb, hwc⟩
      refine ⟨?_, ?_, ?_⟩
      · rw [h2a]; simpa using hwa
      · rw [h2b]; simpa using hwb
      · rw [h2c]; simpa using hwc
    · rw [runWaves]
      rw [if_neg hg]
      exact ⟨rfl, rfl, rfl⟩

/-- C4: a voting run never surfaces an error — a backend failure is
absorbed as a non-valid sample — and when every attempt of the run fails
(backend error, red flag, or empty canonical form) the run still returns,
with the empty winner and zero valid samples. -/
theorem C4_total_failure (oracle : Nat → BackendOutcome) (extract : String → String)
    (k max_rounds bs maxtok : Nat) (et : Bool)
    (hfail : ∀ i, sampleVoteBody extract maxtok (oracle i) = (none, false)) :
    sampleVoteBody extract maxtok BackendOutcome.err = (none, false) ∧
    (first_to_ahead_by_k_voting oracle extract k max_rounds bs maxtok et).1 = "" ∧
    (first_to_ahead_by_k_voting oracle extract k max_rounds bs maxtok et).2.valid_samples = 0 := by
  refine ⟨rfl, ?_, ?_⟩ <;>
  · have hfr : sample_vote et initController.terminated extract maxtok (oracle 0) =
        ((none : Option String), false) := by
      simp [sample_vote, initController, hfail 0]
    have hL := runWaves_allfail oracle extract k maxtok bs et hfail max_rounds
      { st := { votes := [], total_samples := 1, valid_samples := 0, red_flagged := 1,
                batch_rounds := 0, early_terminated := false },
        ctrl := { winner := none, terminated := false }, idx := 1, rem := max_rounds - 1 }
    rcases hL with ⟨hLv, hLs, hLc⟩
    simp only [first_to_ahead_by_k_voting, first_to_ahead_by_k_votingFull, hfr]
    simp only [initState, initController] at *
    simp [votingFinish, votingFallback, hLc, hLv, hLs]

/-- Witness for C4: a run whose backend always errors returns the empty
winner with zero valid samples. -/
theorem C4_total_failure_witness :
    sampleVoteBody (fun s => s) 750 BackendOutcome.err = (none, false) ∧
    (first_to_ahead_by_k_voting (fun _ => BackendOutcome.err) (fun s => s) 1 3 2 750 true).1 = "" ∧
    (first_to_ahead_by_k_voting (fun _ => BackendOutcome.err) (fun s => s) 1 3 2 750 true).2.valid_samples = 0 :=
  C4_total_failure (fun _ => BackendOutcome.err) (fun s => s) 1 3 2 750 true (fun _ => rfl)

/-- Helper: `check_red_flags` accepts exactly the samples within the token
threshold whose text is non-empty after stripping. -/
theorem check_red_flags_valid_iff (text : String) (tokens maxtok : Nat) :
    (check_red_flags text tokens maxtok).is_valid = true ↔
      (tokens ≤ maxtok ∧ pyStrip text ≠ "") := by
  unfold check_red_flags
  split_ifs with h1 h2 <;> simp_all

/-- C5 counterexample: the completed sample "hello" (1 token) passes the
red-flag check, yet under a canonicalization that yields the empty string
(as the repository's own `extract_code_or_answer` can, e.g. on a bare
marker) it is counted invalid — the run red-flags it and counts no valid
sample — so the red-flag check is not the entirety of the validity policy. -/
theorem C5_canonical_empty_counterexample :
    (check_red_flags "hello" 1 750).is_valid = true ∧
    sampleVoteBody (fun _ => "") 750 (BackendOutcome.ok "hello" 1) = (none, false) ∧
    (first_to_ahead_by_k_voting (fun _ => BackendOutcome.ok "hello" 1) (fun _ => "")
      1 1 1 750 true).2.valid_samples = 0 ∧
    (first_to_ahead_by_k_voting (fun _ => BackendOutcome.ok "hello" 1) (fun _ => "")
      1 1 1 750 true).2.red_flagged = 1 := by
  refine ⟨by decide, rfl, by decide, by decide⟩

/-- C5 (amended): a completed sample is counted as a valid vote iff it
passes the red-flag check AND its canonical form `extract_answer(text)` is
non-empty; with the default canonicalization (`strip`) the two conditions
coincide, so the red-flag check alone decides validity only in that case. -/
theorem C5_validity_policy_amended (extract : String → String) (maxtok : Nat)
    (text : String) (tokens : Nat) :
    ((sampleVoteBody extract maxtok (BackendOutcome.ok text tokens)).2 = true ↔
      ((check_red_flags text tokens maxtok).is_valid = true ∧ extract text ≠ "")) ∧
    ((sampleVoteBody pyStrip maxtok (BackendOutcome.ok text tokens)).2 = true ↔
      (check_red_flags text tokens maxtok).is_valid = true) := by
  constructor
  · simp only [sampleVoteBody]
    split_ifs with h1 h2 <;> simp_all
  · simp only [sampleVoteBody]
    split_ifs with h1 h2 <;> simp_all [check_red_flags_valid_iff]

/-- Helper: in gather mode every wave result is folded, so `total_samples`
grows by the wave length and `samples_remaining` shrinks by it. -/
theorem foldAll_total (k : Nat) (rs : List (Option String × Bool)) :
    ∀ f : FoldState,
      (foldAll k f rs).st.total_samples = f.st.total_samples + rs.length ∧
      (foldAll k f rs).rem = f.rem - rs.length := by
  induction rs with
  | nil => intro f; simp [foldAll_nil]
  | cons r rest ih =>
    intro f
    rcases r with ⟨oc, b⟩
    rcases oc with _ | c
    · rw [foldAll_cons_red_none k f b rest]
      have h2 := ih (FoldState.mk { f.st with total_samples := f.st.total_samples + 1, red_flagged := f.st.red_flagged + 1 } f.ctrl (f.rem - 1))
      simp only [h2.1, h2.2]
      constructor
      · simp; omega
      · simp; omega
    · cases b with
      | false =>
        rw [foldAll_cons_some_false k f c rest]
        have h2 := ih (FoldState.mk { f.st with total_samples := f.st.total_samples + 1, red_flagged := f.st.red_flagged + 1 } f.ctrl (f.rem - 1))
        simp only [h2.1, h2.2]
        refine ⟨by simp; omega, by simp; omega⟩
      | true =>
        by_cases hc : c = ""
        · subst hc
          rw [foldAll_cons_some_empty k f rest]
          have h2 := ih (FoldState.mk { f.st with total_samples := f.st.total_samples + 1, red_flagged := f.st.red_flagged + 1 } f.ctrl (f.rem - 1))
          simp only [h2.1, h2.2]
          refine ⟨by simp; omega, by simp; omega⟩
        · rw [foldAll_cons_valid k f c rest hc]
          have h2 := ih (FoldState.mk { f.st with total_samples := f.st.total_samples + 1, valid_samples := f.st.valid_samples + 1, votes := bumpVote f.st.votes c } (check_and_set_winner f.ctrl c (bumpVote f.st.votes c) k).2 (f.rem - 1))
          simp only [h2.1, h2.2]
          refine ⟨by simp; omega, by simp; omega⟩

/-- Helper: with early termination disabled the wave fold is the gather fold. -/
theorem waveFold_false (k : Nat) (f : FoldState) (rs : List (Option String × Bool)) :
    waveFold k false f rs = foldAll k f rs := rfl

/-- Helper: a wave dispatches `w` attempts and produces `w` results. -/
theorem waveResults_length (oracle : Nat → BackendOutcome) (extract : String → String)
    (maxtok : Nat) (et term : Bool) (idx w : Nat) :
    (waveResults oracle extract maxtok et term idx w).length = w := by
  simp [waveResults]

/-- Helper: in non-early-termination mode the batch loop preserves
`total_samples - idx` and `idx + rem`. -/
theorem runWaves_issued (oracle : Nat → BackendOutcome) (extract : String → String)
    (k maxtok bs : Nat) :
    ∀ (fuel : Nat) (ls : LoopState),
      (runWaves oracle extract k maxtok bs false fuel ls).st.total_samples + ls.idx =
        ls.st.total_samples + (runWaves oracle extract k maxtok bs false fuel ls).idx ∧
      (runWaves oracle extract k maxtok bs false fuel ls).idx +
        (runWaves oracle extract k maxtok bs false fuel ls).rem = ls.idx + ls.rem := by
  intro fuel
  induction fuel with
  | zero => intro ls; exact ⟨rfl, rfl⟩
  | succ n ih =>
    intro ls
    by_cases hg : 0 < ls.rem ∧ ls.ctrl.terminated = false
    · rw [runWaves_succ oracle extract k maxtok bs false n ls hg]
      rw [waveFold_false] at *
      have hfold := foldAll_total k
        (waveResults oracle extract maxtok false ls.ctrl.terminated ls.idx (min bs ls.rem))
        (FoldState.mk { ls.st with batch_rounds := ls.st.batch_rounds + 1 } ls.ctrl ls.rem)
      rw [waveResults_length] at hfold
      have hw : min bs ls.rem ≤ ls.rem := Nat.min_le_right bs ls.rem
      have h2 := ih (LoopState.mk
        (foldAll k (FoldState.mk { ls.st with batch_rounds := ls.st.batch_rounds + 1 } ls.ctrl ls.rem)
          (waveResults oracle extract maxtok false ls.ctrl.terminated ls.idx (min bs ls.rem))).st
        (foldAll k (FoldState.mk { ls.st with batch_rounds := ls.st.batch_rounds + 1 } ls.ctrl ls.rem)
          (waveResults oracle extract maxtok false ls.ctrl.terminated ls.idx (min bs ls.rem))).ctrl
        (ls.idx + min bs ls.rem)
        (foldAll k (FoldState.mk { ls.st with batch_rounds := ls.st.batch_rounds + 1 } ls.ctrl ls.rem)
          (waveResults oracle extract maxtok false ls.ctrl.terminated ls.idx (min bs ls.rem))).rem)
      dsimp only at h2 hfold ⊢
      omega
    · rw [runWaves]
      rw [if_neg hg]
      omega

/-- Helper: a bumped tally is never empty. -/
theorem bumpVote_ne_nil (votes : Tally) (c : String) : bumpVote votes c ≠ [] := by
  unfold bumpVote
  split_ifs with h
  · intro hmap
    rcases hv : votes with _ | ⟨kv, rest⟩
    · rw [hv] at h; simp at h
    · rw [hv] at hmap; simp at hmap
  · simp

/-- Helper: bumping preserves the key set. -/
theorem mem_keys_bumpVote (votes : Tally) (c x : String)
    (hx : x ∈ votes.map Prod.fst) : x ∈ (bumpVote votes c).map Prod.fst := by
  unfold bumpVote
  split_ifs with h
  · rcases List.mem_map.mp hx with ⟨kv, hkv, hfst⟩
    refine List.mem_map.mpr ⟨if kv.1 == c then (kv.1, kv.2 + 1) else kv, ?_, ?_⟩
    · exact List.mem_map.mpr ⟨kv, hkv, rfl⟩
    · by_cases hb : (kv.1 == c) = true
      · simp only [hb, if_true]
        simpa using hfst
      · simp only [hb, Bool.false_eq_true, if_false]
        exact hfst
  · simp [hx]

/-- Helper: the bumped candidate is a key of the bumped tally. -/
theorem self_mem_keys_bumpVote (votes : Tally) (c : String) :
    c ∈ (bumpVote votes c).map Prod.fst := by
  unfold bumpVote
  split_ifs with h
  · rcases List.find?_isSome.mp h with ⟨kv, hkv, hp⟩
    have hc : kv.1 = c := by simpa using hp
    refine List.mem_map.mpr ⟨(kv.1, kv.2 + 1), ?_, hc⟩
    refine List.mem_map.mpr ⟨kv, hkv, ?_⟩
    simp [hp]
  · simp

/-- Helper: bumping a non-empty key into a tally of non-empty keys keeps
every key non-empty. -/
theorem keys_ne_bumpVote (votes : Tally) (c : String) (hc : c ≠ "")
    (hall : ∀ kv ∈ votes, kv.1 ≠ "") :
    ∀ kv ∈ bumpVote votes c, kv.1 ≠ "" := by
  unfold bumpVote
  split_ifs with h
  · intro kv hkv
    rcases List.mem_map.mp hkv with ⟨kv0, hkv0, hf⟩
    by_cases hb : (kv0.1 == c) = true
    · rw [← hf]; simp only [hb, if_true]
      have : kv0.1 = c := by simpa using hb
      simpa [this] using hc
    · rw [← hf]; simp only [hb]
      simp only [Bool.false_eq_true, if_false]
      exact hall kv0 hkv0
  · intro kv hkv
    rcases List.mem_append.mp hkv with h1 | h1
    · exact hall kv h1
    · rcases List.mem_singleton.mp h1 with rfl
      simpa using hc


/-- Helper: every run either returns at the immediate first-sample win, or
hands a one-sample start state (with non-empty keys, a non-empty tally
whenever a valid sample was counted, and a sound controller) to the batch
loop and finishes through `votingFinish`. -/
theorem votingFull_cases (oracle : Nat → BackendOutcome) (extract : String → String)
    (k mr bs maxtok : Nat) (et : Bool) :
    (∃ (c : String) (st : VotingState) (ctrl : VotingController),
        first_to_ahead_by_k_votingFull oracle extract k mr bs maxtok et =
          (c, LoopState.mk st ctrl 1 (mr - 1)) ∧
        st.total_samples = 1 ∧ c ≠ "" ∧ st.votes = bumpVote [] c ∧ st.valid_samples = 1 ∧
        ctrl = (check_and_set_winner initController c (bumpVote [] c) k).2 ∧
        (check_and_set_winner initController c (bumpVote [] c) k).1 = true) ∨
    (∃ (st : VotingState) (ctrl : VotingController),
        st.total_samples = 1 ∧
        (∀ kv ∈ st.votes, kv.1 ≠ "") ∧
        (0 < st.valid_samples → st.votes ≠ []) ∧
        (∀ w, ctrl.winner = some w → w ≠ "" ∧ w ∈ st.votes.map Prod.fst) ∧
        first_to_ahead_by_k_votingFull oracle extract k mr bs maxtok et =
          (votingFinish
            (runWaves oracle extract k maxtok bs et mr (LoopState.mk st ctrl 1 (mr - 1))).st
            (runWaves oracle extract k maxtok bs et mr (LoopState.mk st ctrl 1 (mr - 1))).ctrl,
           runWaves oracle extract k maxtok bs et mr (LoopState.mk st ctrl 1 (mr - 1)))) := by
  rcases hfr : sample_vote et false extract maxtok (oracle 0) with ⟨oc, b⟩
  rcases oc with _ | c
  · cases b
    all_goals
      right
      refine ⟨{ votes := [], total_samples := 1, valid_samples := 0, red_flagged := 1,
                batch_rounds := 0, early_terminated := false }, initController,
              rfl, by simp, by simp, ?_, ?_⟩
      · intro w hw; simp [initController] at hw
      · simp [first_to_ahead_by_k_votingFull, initState, initController, hfr]
  · cases b with
    | false =>
      right
      refine ⟨{ votes := [], total_samples := 1, valid_samples := 0, red_flagged := 1,
                batch_rounds := 0, early_terminated := false }, initController,
              rfl, by simp, by simp, ?_, ?_⟩
      · intro w hw; simp [initController] at hw
      · simp [first_to_ahead_by_k_votingFull, initState, initController, hfr]
    | true =>
      by_cases hc : c = ""
      · subst hc
        right
        refine ⟨{ votes := [], total_samples := 1, valid_samples := 0, red_flagged := 1,
                  batch_rounds := 0, early_terminated := false }, initController,
                rfl, by simp, by simp, ?_, ?_⟩
        · intro w hw; simp [initController] at hw
        · simp [first_to_ahead_by_k_votingFull, initState, initController, hfr]
      · cases hw : (check_and_set_winner initController c (bumpVote [] c) k).1 with
        | true =>
          left
          refine ⟨c, { votes := bumpVote [] c, total_samples := 1, valid_samples := 1,
                       red_flagged := 0, batch_rounds := 0, early_terminated := true },
                  (check_and_set_winner initController c (bumpVote [] c) k).2,
                  ?_, rfl, hc, rfl, rfl, rfl, hw⟩
          have hw2 : (check_and_set_winner { winner := none, terminated := false } c
              (bumpVote [] c) k).1 = true := hw
          simp [first_to_ahead_by_k_votingFull, initState, initController, hfr, hc, hw2]
        | false =>
          right
          refine ⟨{ votes := bumpVote [] c, total_samples := 1, valid_samples := 1,
                    red_flagged := 0, batch_rounds := 0, early_terminated := false },
                  (check_and_set_winner initController c (bumpVote [] c) k).2,
                  rfl, ?_, ?_, ?_, ?_⟩
          · exact keys_ne_bumpVote [] c hc (by simp)
          · intro _; exact bumpVote_ne_nil [] c
          · have hctrl : (check_and_set_winner initController c (bumpVote [] c) k).2 =
                initController := check_false_ctrl initController c (bumpVote [] c) k hw
            rw [hctrl]
            intro w hwn; simp [initController] at hwn
          · have hw2 : (check_and_set_winner { winner := none, terminated := false } c
                (bumpVote [] c) k).1 = false := hw
            simp [first_to_ahead_by_k_votingFull, initState, initController, hfr, hc, hw2]

/-- C9 counterexample: with early termination disabled and `max_rounds = 0`
the initial deterministic sample is still issued, so `total_samples = 1`
exceeds `maxRounds` — the claimed bound fails at this configuration. -/
theorem C9_max_rounds_zero_counterexample :
    (first_to_ahead_by_k_voting (fun _ => BackendOutcome.ok "a" 1) (fun s => s)
      3 0 5 750 false).2.total_samples = 1 ∧
    ¬((first_to_ahead_by_k_voting (fun _ => BackendOutcome.ok "a" 1) (fun s => s)
      3 0 5 750 false).2.total_samples ≤ 0) := by
  refine ⟨by decide, by decide⟩

/-- C9 (amended): with early termination disabled and a positive batch size,
`total_samples` at the end of a run equals the number of attempts actually
issued (the loop index), for every oracle — hence independently of when or
whether a margin winner appears — and is bounded by `max maxRounds 1`: the
initial sample is issued even when `maxRounds = 0`, and for `maxRounds ≥ 1`
the bound is `maxRounds` itself. -/
theorem C9_total_equals_issued_amended (oracle : Nat → BackendOutcome)
    (extract : String → String) (k max_rounds bs maxtok : Nat) (hbs : 1 ≤ bs) :
    (first_to_ahead_by_k_votingFull oracle extract k max_rounds bs maxtok false).2.st.total_samples =
      (first_to_ahead_by_k_votingFull oracle extract k max_rounds bs maxtok false).2.idx ∧
    (first_to_ahead_by_k_votingFull oracle extract k max_rounds bs maxtok false).2.st.total_samples ≤
      max max_rounds 1 := by
  rcases votingFull_cases oracle extract k max_rounds bs maxtok false with
    ⟨c, st, ctrl, heq, htot, _⟩ | ⟨st, ctrl, htot, _, _, _, heq⟩
  · rw [heq]
    dsimp only
    rw [htot]
    exact ⟨rfl, Nat.le_max_right _ _⟩
  · rw [heq]
    dsimp only
    have h := runWaves_issued oracle extract k maxtok bs max_rounds
      (LoopState.mk st ctrl 1 (max_rounds - 1))
    dsimp only at h
    rw [htot] at h
    omega

/-- Witness for C9 (amended) at a concrete configuration. -/
theorem C9_total_equals_issued_witness :
    (first_to_ahead_by_k_votingFull (fun _ => BackendOutcome.ok "a" 1) (fun s => s)
      3 4 2 750 false).2.st.total_samples =
      (first_to_ahead_by_k_votingFull (fun _ => BackendOutcome.ok "a" 1) (fun s => s)
        3 4 2 750 false).2.idx ∧
    (first_to_ahead_by_k_votingFull (fun _ => BackendOutcome.ok "a" 1) (fun s => s)
      3 4 2 750 false).2.st.total_samples ≤ max 4 1 :=
  C9_total_equals_issued_amended (fun _ => BackendOutcome.ok "a" 1) (fun s => s)
    3 4 2 750 (by decide)

/-- Helper: the early-termination fold preserves the run invariant
(non-empty keys, tally non-empty once a valid sample is counted, installed
winner non-empty and present in the tally). -/
theorem foldET_good (k : Nat) (rs : List (Option String × Bool)) :
    ∀ f : FoldState,
      (∀ kv ∈ f.st.votes, kv.1 ≠ "") →
      (0 < f.st.valid_samples → f.st.votes ≠ []) →
      (∀ w, f.ctrl.winner = some w → w ≠ "" ∧ w ∈ f.st.votes.map Prod.fst) →
      ((∀ kv ∈ (foldET k f rs).st.votes, kv.1 ≠ "") ∧
       (0 < (foldET k f rs).st.valid_samples → (foldET k f rs).st.votes ≠ []) ∧
       (∀ w, (foldET k f rs).ctrl.winner = some w →
          w ≠ "" ∧ w ∈ (foldET k f rs).st.votes.map Prod.fst)) := by
  induction rs with
  | nil => intro f h1 h2 h3; exact ⟨h1, h2, h3⟩
  | cons r rest ih =>
    intro f h1 h2 h3
    by_cases ht : f.ctrl.terminated = true
    · rw [foldET_terminated k f ht]; exact ⟨h1, h2, h3⟩
    · have ht' : f.ctrl.terminated = false := by simpa using ht
      rcases r with ⟨oc, b⟩
      rcases oc with _ | c
      · rw [foldET_cons_red_none k f b rest ht']
        exact ih (FoldState.mk { f.st with total_samples := f.st.total_samples + 1, red_flagged := f.st.red_flagged + 1 } f.ctrl (f.rem - 1)) h1 h2 h3
      · cases b with
        | false =>
          rw [foldET_cons_some_false k f c rest ht']
          exact ih (FoldState.mk { f.st with total_samples := f.st.total_samples + 1, red_flagged := f.st.red_flagged + 1 } f.ctrl (f.rem - 1)) h1 h2 h3
        | true =>
          by_cases hc : c = ""
          · subst hc
            rw [foldET_cons_some_empty k f rest ht']
            exact ih (FoldState.mk { f.st with total_samples := f.st.total_samples + 1, red_flagged := f.st.red_flagged + 1 } f.ctrl (f.rem - 1)) h1 h2 h3
          · cases hwin : (check_and_set_winner f.ctrl c (bumpVote f.st.votes c) k).1 with
            | true =>
              rw [foldET_cons_win k f c rest ht' hc hwin]
              have hctrl := check_true_ctrl f.ctrl c (bumpVote f.st.votes c) k hwin
              refine ⟨keys_ne_bumpVote f.st.votes c hc h1,
                      fun _ => bumpVote_ne_nil f.st.votes c, ?_⟩
              intro w hw
              rw [hctrl] at hw
              simp only [Option.some.injEq] at hw
              subst hw
              exact ⟨hc, self_mem_keys_bumpVote f.st.votes c⟩
            | false =>
              rw [foldET_cons_step k f c rest ht' hc hwin]
              have hctrl := check_false_ctrl f.ctrl c (bumpVote f.st.votes c) k hwin
              refine ih (FoldState.mk { f.st with total_samples := f.st.total_samples + 1, valid_samples := f.st.valid_samples + 1, votes := bumpVote f.st.votes c } (check_and_set_winner f.ctrl c (bumpVote f.st.votes c) k).2 (f.rem - 1))
                (keys_ne_bumpVote f.st.votes c hc h1)
                (fun _ => bumpVote_ne_nil f.st.votes c) ?_
              intro w hw
              rw [hctrl] at hw
              rcases h3 w hw with ⟨hne, hmem⟩
              exact ⟨hne, mem_keys_bumpVote f.st.votes c w hmem⟩

/-- Helper: the gather fold preserves the same run invariant. -/
theorem foldAll_good (k : Nat) (rs : List (Option String × Bool)) :
    ∀ f : FoldState,
      (∀ kv ∈ f.st.votes, kv.1 ≠ "") →
      (0 < f.st.valid_samples → f.st.votes ≠ []) →
      (∀ w, f.ctrl.winner = some w → w ≠ "" ∧ w ∈ f.st.votes.map Prod.fst) →
      ((∀ kv ∈ (foldAll k f rs).st.votes, kv.1 ≠ "") ∧
       (0 < (foldAll k f rs).st.valid_samples → (foldAll k f rs).st.votes ≠ []) ∧
       (∀ w, (foldAll k f rs).ctrl.winner = some w →
          w ≠ "" ∧ w ∈ (foldAll k f rs).st.votes.map Prod.fst)) := by
  induction rs with
  | nil => intro f h1 h2 h3; exact ⟨h1, h2, h3⟩
  | cons r rest ih =>
    intro f h1 h2 h3
    rcases r with ⟨oc, b⟩
    rcases oc with _ | c
    · rw [foldAll_cons_red_none k f b rest]
      exact ih (FoldState.mk { f.st with total_samples := f.st.total_samples + 1, red_flagged := f.st.red_flagged + 1 } f.ctrl (f.rem - 1)) h1 h2 h3
    · cases b with
      | false =>
        rw [foldAll_cons_some_false k f c rest]
        exact ih (FoldState.mk { f.st with total_samples := f.st.total_samples + 1, red_flagged := f.st.red_flagged + 1 } f.ctrl (f.rem - 1)) h1 h2 h3
      | true =>
        by_cases hc : c = ""
        · subst hc
          rw [foldAll_cons_some_empty k f rest]
          exact ih (FoldState.mk { f.st with total_samples := f.st.total_samples + 1, red_flagged := f.st.red_flagged + 1 } f.ctrl (f.rem - 1)) h1 h2 h3
        · rw [foldAll_cons_valid k f c rest hc]
          refine ih (FoldState.mk { f.st with total_samples := f.st.total_samples + 1, valid_samples := f.st.valid_samples + 1, votes := bumpVote f.st.votes c } (check_and_set_winner f.ctrl c (bumpVote f.st.votes c) k).2 (f.rem - 1))
            (keys_ne_bumpVote f.st.votes c hc h1)
            (fun _ => bumpVote_ne_nil f.st.votes c) ?_
          cases hwin : (check_and_set_winner f.ctrl c (bumpVote f.st.votes c) k).1 with
          | true =>
            have hctrl := check_true_ctrl f.ctrl c (bumpVote f.st.votes c) k hwin
            intro w hw
            rw [hctrl] at hw
            simp only [Option.some.injEq] at hw
            subst hw
            exact ⟨hc, self_mem_keys_bumpVote f.st.votes c⟩
          | false =>
            have hctrl := check_false_ctrl f.ctrl c (bumpVote f.st.votes c) k hwin
            intro w hw
            rw [hctrl] at hw
            rcases h3 w hw with ⟨hne, hmem⟩
            exact ⟨hne, mem_keys_bumpVote f.st.votes c w hmem⟩

/-- Helper: either wave fold preserves the run invariant. -/
theorem waveFold_good (k : Nat) (et : Bool) (f : FoldState)
    (rs : List (Option String × Bool))
    (h1 : ∀ kv ∈ f.st.votes, kv.1 ≠ "")
    (h2 : 0 < f.st.valid_samples → f.st.votes ≠ [])
    (h3 : ∀ w, f.ctrl.winner = some w → w ≠ "" ∧ w ∈ f.st.votes.map Prod.fst) :
    ((∀ kv ∈ (waveFold k et f rs).st.votes, kv.1 ≠ "") ∧
     (0 < (waveFold k et f rs).st.valid_samples → (waveFold k et f rs).st.votes ≠ []) ∧
     (∀ w, (waveFold k et f rs).ctrl.winner = some w →
        w ≠ "" ∧ w ∈ (waveFold k et f rs).st.votes.map Prod.fst)) := by
  cases et with
  | true => simpa [waveFold] using foldET_good k rs f h1 h2 h3
  | false => simpa [waveFold] using foldAll_good k rs f h1 h2 h3

/-- Helper: the batch loop preserves the run invariant. -/
theorem runWaves_good (oracle : Nat → BackendOutcome) (extract : String → String)
    (k maxtok bs : Nat) (et : Bool) :
    ∀ (fuel : Nat) (ls : LoopState),
      (∀ kv ∈ ls.st.votes, kv.1 ≠ "") →
      (0 < ls.st.valid_samples → ls.st.votes ≠ []) →
      (∀ w, ls.ctrl.winner = some w → w ≠ "" ∧ w ∈ ls.st.votes.map Prod.fst) →
      ((∀ kv ∈ (runWaves oracle extract k maxtok bs et fuel ls).st.votes, kv.1 ≠ "") ∧
       (0 < (runWaves oracle extract k maxtok bs et fuel ls).st.valid_samples →
          (runWaves oracle extract k maxtok bs et fuel ls).st.votes ≠ []) ∧
       (∀ w, (runWaves oracle extract k maxtok bs et fuel ls).ctrl.winner = some w →
          w ≠ "" ∧
          w ∈ (runWaves oracle extract k maxtok bs et fuel ls).st.votes.map Prod.fst)) := by
  intro fuel
  induction fuel with
  | zero => intro ls h1 h2 h3; exact ⟨h1, h2, h3⟩
  | succ n ih =>
    intro ls h1 h2 h3
    by_cases hg : 0 < ls.rem ∧ ls.ctrl.terminated = false
    · rw [runWaves_succ oracle extract k maxtok bs et n ls hg]
      have hwf := waveFold_good k et
        (FoldState.mk { ls.st with batch_rounds := ls.st.batch_rounds + 1 } ls.ctrl ls.rem)
        (waveResults oracle extract maxtok et ls.ctrl.terminated ls.idx (min bs ls.rem))
        h1 h2 h3
      exact ih (LoopState.mk
        (waveFold k et (FoldState.mk { ls.st with batch_rounds := ls.st.batch_rounds + 1 } ls.ctrl ls.rem) (waveResults oracle extract maxtok et ls.ctrl.terminated ls.idx (min bs ls.rem))).st
        (waveFold k et (FoldState.mk { ls.st with batch_rounds := ls.st.batch_rounds + 1 } ls.ctrl ls.rem) (waveResults oracle extract maxtok et ls.ctrl.terminated ls.idx (min bs ls.rem))).ctrl
        (ls.idx + min bs ls.rem)
        (waveFold k et (FoldState.mk { ls.st with batch_rounds := ls.st.batch_rounds + 1 } ls.ctrl ls.rem) (waveResults oracle extract maxtok et ls.ctrl.terminated ls.idx (min bs ls.rem))).rem)
        hwf.1 hwf.2.1 hwf.2.2
    · rw [runWaves]
      rw [if_neg hg]
      exact ⟨h1, h2, h3⟩

/-- Helper: the running best of the plurality fold is one of the candidates. -/
theorem foldl_best_mem (rest : List (String × Nat)) :
    ∀ best : String × Nat,
      rest.foldl (fun b x => if x.2 > b.2 then x else b) best ∈ best :: rest := by
  induction rest with
  | nil => intro best; simp
  | cons x xs ih =>
    intro best
    simp only [List.foldl_cons]
    by_cases hx : x.2 > best.2
    · rw [if_pos hx]
      rcases List.mem_cons.mp (ih x) with h | h
      · rw [h]; simp
      · simp [List.mem_cons, h]
    · rw [if_neg hx]
      rcases List.mem_cons.mp (ih best) with h | h
      · rw [h]; simp
      · simp [List.mem_cons, h]

/-- Helper: the plurality fallback picks a key of a non-empty tally. -/
theorem pluralityWinner_mem (votes : Tally) (h : votes ≠ []) :
    pluralityWinner votes ∈ votes.map Prod.fst := by
  unfold pluralityWinner
  rcases votes with _ | ⟨kv, rest⟩
  · exact absurd rfl h
  · have hmem := foldl_best_mem rest kv
    exact List.mem_map.mpr ⟨_, hmem, rfl⟩

/-- Helper: the plurality fallback of a non-empty tally is its plurality
winner. -/
theorem votingFallback_eq (st : VotingState) (hne : st.votes ≠ []) :
    votingFallback st = pluralityWinner st.votes := by
  unfold votingFallback
  rcases hv : st.votes with _ | ⟨kv, rest⟩
  · exact absurd hv hne
  · rfl

/-- Helper: under the run invariant, a run with at least one valid sample
finishes with a non-empty winner that is a key of the final tally. -/
theorem votingFinish_good (st : VotingState) (ctrl : VotingController)
    (h1 : ∀ kv ∈ st.votes, kv.1 ≠ "")
    (h3 : ∀ w, ctrl.winner = some w → w ≠ "" ∧ w ∈ st.votes.map Prod.fst)
    (hne : st.votes ≠ []) :
    votingFinish st ctrl ≠ "" ∧ votingFinish st ctrl ∈ st.votes.map Prod.fst := by
  cases hw : ctrl.winner with
  | some w =>
    rcases h3 w hw with ⟨hwne, hwmem⟩
    simp only [votingFinish, hw, hwne, if_neg]
    exact ⟨hwne, hwmem⟩
  | none =>
    simp only [votingFinish, hw]
    rw [votingFallback_eq st hne]
    have hmem := pluralityWinner_mem st.votes hne
    have hple : pluralityWinner st.votes ≠ "" := by
      rcases List.mem_map.mp hmem with ⟨kv0, hkv0, hf⟩
      rw [← hf]
      exact h1 kv0 hkv0
    exact ⟨hple, hmem⟩

/-- C10: whenever a run ends with `valid_samples > 0`, the returned winner
is a non-empty string and is a candidate present in the returned tally; the
empty winner occurs only when no valid vote was ever counted. -/
theorem C10_valid_nonempty_winner (oracle : Nat → BackendOutcome)
    (extract : String → String) (k max_rounds bs maxtok : Nat) (et : Bool)
    (h : 0 < (first_to_ahead_by_k_voting oracle extract k max_rounds bs maxtok et).2.valid_samples) :
    (first_to_ahead_by_k_voting oracle extract k max_rounds bs maxtok et).1 ≠ "" ∧
    (first_to_ahead_by_k_voting oracle extract k max_rounds bs maxtok et).1 ∈
      (first_to_ahead_by_k_voting oracle extract k max_rounds bs maxtok et).2.votes.map Prod.fst := by
  rcases votingFull_cases oracle extract k max_rounds bs maxtok et with
    ⟨c, st, ctrl, heq, _, hc, hv, _⟩ | ⟨st, ctrl, _, h1, h2, h3, heq⟩
  · simp only [first_to_ahead_by_k_voting, heq]
    refine ⟨hc, ?_⟩
    rw [hv]
    exact self_mem_keys_bumpVote [] c
  · simp only [first_to_ahead_by_k_voting, heq] at h ⊢
    have hg := runWaves_good oracle extract k maxtok bs et max_rounds
      (LoopState.mk st ctrl 1 (max_rounds - 1)) h1 h2 h3
    exact votingFinish_good _ _ hg.1 hg.2.2 (hg.2.1 h)

/-- Witness for C10: a k=1 run whose first sample wins returns that sample
as a non-empty winner present in the tally. -/
theorem C10_valid_nonempty_winner_witness :
    (first_to_ahead_by_k_voting (fun _ => BackendOutcome.ok "yes" 1) (fun s => s)
      1 1 1 750 true).1 ≠ "" ∧
    (first_to_ahead_by_k_voting (fun _ => BackendOutcome.ok "yes" 1) (fun s => s)
      1 1 1 750 true).1 ∈
      (first_to_ahead_by_k_voting (fun _ => BackendOutcome.ok "yes" 1) (fun s => s)
        1 1 1 750 true).2.votes.map Prod.fst :=
  C10_valid_nonempty_winner (fun _ => BackendOutcome.ok "yes" 1) (fun s => s)
    1 1 1 750 true (by decide)

/-- C6 counterexample: at temperature 0, a backend response that fails the
red-flag check (empty text, 800 tokens over the 750 threshold) is still
written into the cache by `create_message` — caching happens before any
red-flag validation. -/
theorem C6_cache_unvalidated_counterexample :
    ((create_message_cache (fun s => s) (emptyCache 100 300) 0 "m" "s" "p" 0 ("", 800)).2).entries =
      [("m:s:p", { value := "", tokens := 800, timestamp := 0 })] ∧
    (check_red_flags "" 800 750).is_valid = false := by
  refine ⟨by decide, by decide⟩

/-- C6 (amended): at temperature 0, `create_message` stores every completed
backend response in the cache on a miss, regardless of red-flag validity —
entries are populated from completed responses, not only from validated
samples (the red-flag filter runs later, in `sample_vote`). -/
theorem C6_cache_stores_amended (hash : String → String) (ms : Nat) (ttl now : ℚ)
    (m s p v : String) (tk : Nat) (hk : hash (m ++ ":" ++ s ++ ":" ++ p) ≠ "") :
    ((create_message_cache hash (emptyCache ms ttl) now m s p 0 (v, tk)).2).entries =
      [(hash (m ++ ":" ++ s ++ ":" ++ p), { value := v, tokens := tk, timestamp := now })] := by
  have hkey : make_key hash m s p 0 = hash (m ++ ":" ++ s ++ ":" ++ p) := by
    simp [make_key]
  have hget : ResponseCache.get hash (emptyCache ms ttl) now m s p 0 =
      (none, { emptyCache ms ttl with misses := 1 }) := by
    simp [ResponseCache.get, hkey, hk, cacheLookup, emptyCache]
  unfold create_message_cache
  rw [hget]
  by_cases hms : ms ≤ 0
  · simp [ResponseCache.set, hkey, hk, ResponseCache.cleanup, dictInsert, emptyCache,
      sortLe, insertLe, hms]
  · simp [ResponseCache.set, hkey, hk, dictInsert, emptyCache, hms]

/-- Witness for C6 (amended) at a concrete store of an arbitrary (possibly
invalid) response. -/
theorem C6_cache_stores_witness :
    ((create_message_cache (fun s => s) (emptyCache 100 300) 5 "m" "s" "p" 0 ("x", 10)).2).entries =
      [("m:s:p", { value := "x", tokens := 10, timestamp := 5 })] :=
  C6_cache_stores_amended (fun s => s) 100 300 5 "m" "s" "p" "x" 10 (by decide)

/-- C7 counterexample: at temperature -1 (not exactly zero) the key is
still computed and the cache is both consulted (the miss counter moves)
and populated — `_make_key` only short-circuits for `temperature > 0`. -/
theorem C7_nonzero_temp_counterexample :
    make_key (fun s => s) "m" "s" "p" (-1) = "m:s:p" ∧
    (ResponseCache.set (fun s => s) (emptyCache 100 300) 0 "m" "s" "p" (-1) "v" 1).entries =
      [("m:s:p", { value := "v", tokens := 1, timestamp := 0 })] ∧
    (ResponseCache.get (fun s => s) (emptyCache 100 300) 0 "m" "s" "p" (-1)).2.misses = 1 := by
  refine ⟨by decide, by decide, by decide⟩

/-- C7 (amended): `get` and `set` are no-ops whenever `temperature > 0`
(no hit, no store, no counter change); the key is computed — and the cache
consulted/populated — whenever `temperature ≤ 0`, not only at exactly
zero (in practice only zero occurs, as negative temperatures are not used). -/
theorem C7_cache_noop_amended (hash : String → String) (c : ResponseCache) (now : ℚ)
    (m s p : String) (T : ℚ) :
    (0 < T → ResponseCache.get hash c now m s p T = (none, c) ∧
      (∀ v tk, ResponseCache.set hash c now m s p T v tk = c)) ∧
    (T ≤ 0 → make_key hash m s p T = hash (m ++ ":" ++ s ++ ":" ++ p)) := by
  constructor
  · intro hT
    have hkey : make_key hash m s p T = "" := by simp [make_key, hT]
    refine ⟨by simp [ResponseCache.get, hkey], ?_⟩
    intro v tk
    simp [ResponseCache.set, hkey]
  · intro hT
    have hT2 : ¬(T > 0) := not_lt.mpr hT
    simp [make_key, hT2]

/-- Witness for C7 (amended): concrete no-ops at temperature 1 and key
computation at temperature 0. -/
theorem C7_cache_noop_witness :
    ResponseCache.get (fun s => s) (emptyCache 100 300) 0 "m" "s" "p" 1 =
      (none, emptyCache 100 300) ∧
    ResponseCache.set (fun s => s) (emptyCache 100 300) 0 "m" "s" "p" 1 "v" 2 =
      emptyCache 100 300 ∧
    make_key (fun s => s) "m" "s" "p" 0 = "m:s:p" :=
  ⟨((C7_cache_noop_amended (fun s => s) (emptyCache 100 300) 0 "m" "s" "p" 1).1 (by decide)).1,
   ((C7_cache_noop_amended (fun s => s) (emptyCache 100 300) 0 "m" "s" "p" 1).1 (by decide)).2 "v" 2,
   (C7_cache_noop_amended (fun s => s) (emptyCache 100 300) 0 "m" "s" "p" 0).2 (by decide)⟩

/-- Helper: stable insertion permutes to a cons. -/
theorem insertLe_perm {α : Type} (le : α → α → Bool) (x : α) :
    ∀ l : List α, (insertLe le x l).Perm (x :: l) := by
  intro l
  induction l with
  | nil => exact List.Perm.refl _
  | cons y ys ih =>
    unfold insertLe
    by_cases h : le x y = true
    · rw [if_pos h]
    · rw [if_neg h]
      exact (ih.cons y).trans (List.Perm.swap x y ys)

/-- Helper: the stable sort is a permutation. -/
theorem sortLe_perm {α : Type} (le : α → α → Bool) :
    ∀ l : List α, (sortLe le l).Perm l := by
  intro l
  induction l with
  | nil => exact List.Perm.refl _
  | cons x xs ih =>
    unfold sortLe
    exact (insertLe_perm le x (sortLe le xs)).trans (ih.cons x)

/-- Helper: filtering by a predicate and its negation splits the length. -/
theorem length_filter_split {α : Type} (p : α → Bool) (l : List α) :
    (l.filter p).length + (l.filter (fun a => !(p a))).length = l.length := by
  induction l with
  | nil => rfl
  | cons x xs ih =>
    by_cases hx : p x = true <;> simp [List.filter_cons, hx, ← ih] <;> omega

/-- Helper: deleting the keys of a sub-permutation removes at least that
many entries. -/
theorem filter_not_removed_length (l s : List (String × CacheEntry)) (hs : s.Subperm l) :
    (l.filter (fun kv => !((s.map (fun kv => kv.1)).contains kv.1))).length ≤
      l.length - s.length := by
  have hfil : s.filter (fun kv => (s.map (fun kv => kv.1)).contains kv.1) = s := by
    apply List.filter_eq_self.mpr
    intro kv hkv
    have hmem : kv.1 ∈ s.map (fun kv => kv.1) := List.mem_map.mpr ⟨kv, hkv, rfl⟩
    simpa using hmem
  have hsub := List.Subperm.filter (fun kv => (s.map (fun kv => kv.1)).contains kv.1) hs
  rw [hfil] at hsub
  have hlen := hsub.length_le
  have hsplit := length_filter_split
    (fun kv => (s.map (fun kv => kv.1)).contains kv.1) l
  omega

/-- Helper: `_cleanup` at (or under) capacity leaves at least one slot free
when the capacity is at least 2. -/
theorem cleanup_length (c : ResponseCache) (now : ℚ) (hm : 2 ≤ c.max_size)
    (hlen : c.entries.length ≤ c.max_size) :
    (ResponseCache.cleanup c now).entries.length ≤ c.max_size - 1 := by
  unfold ResponseCache.cleanup
  by_cases hcap :
      (c.entries.filter (fun kv => !(kv.2.is_expired c.ttl now))).length ≥ c.max_size
  · rw [if_pos hcap]
    have hksub : (c.entries.filter (fun kv => !(kv.2.is_expired c.ttl now))).length ≤
        c.entries.length := List.length_filter_le _ _
    have hsp : ((sortLe (fun a b => decide (a.2.timestamp ≤ b.2.timestamp))
          (c.entries.filter (fun kv => !(kv.2.is_expired c.ttl now)))).take
          ((c.entries.filter (fun kv => !(kv.2.is_expired c.ttl now))).length / 2)).Subperm
        (c.entries.filter (fun kv => !(kv.2.is_expired c.ttl now))) := by
      refine List.Subperm.trans ?_
        (List.Perm.subperm (sortLe_perm (fun a b => decide (a.2.timestamp ≤ b.2.timestamp)) _))
      exact (List.take_sublist _ _).subperm
    have hdel := filter_not_removed_length _ _ hsp
    have htake : ((sortLe (fun a b => decide (a.2.timestamp ≤ b.2.timestamp))
          (c.entries.filter (fun kv => !(kv.2.is_expired c.ttl now)))).take
          ((c.entries.filter (fun kv => !(kv.2.is_expired c.ttl now))).length / 2)).length =
        (c.entries.filter (fun kv => !(kv.2.is_expired c.ttl now))).length / 2 := by
      rw [List.length_take]
      have hperm := (sortLe_perm (fun a b => decide (a.2.timestamp ≤ b.2.timestamp))
        (c.entries.filter (fun kv => !(kv.2.is_expired c.ttl now)))).length_eq
      omega
    rw [htake] at hdel
    dsimp only
    omega
  · rw [if_neg hcap]
    dsimp only
    omega

/-- Helper: one `get` never grows the map and keeps the configuration. -/
theorem get_entries_length (hash : String → String) (c : ResponseCache) (now : ℚ)
    (m s p : String) (T : ℚ) :
    ((ResponseCache.get hash c now m s p T).2).entries.length ≤ c.entries.length ∧
    ((ResponseCache.get hash c now m s p T).2).max_size = c.max_size := by
  unfold ResponseCache.get
  dsimp only
  constructor
  · split
    · exact le_refl _
    · split
      · split
        · exact le_refl _
        · exact (List.eraseP_sublist _).length_le
      · exact le_refl _
  · split
    · rfl
    · split
      · split
        · rfl
        · rfl
      · rfl

/-- Helper: `dictInsert` grows the map by at most one entry. -/
theorem dictInsert_length (entries : List (String × CacheEntry)) (key : String)
    (e : CacheEntry) :
    (dictInsert entries key e).length ≤ entries.length + 1 := by
  unfold dictInsert
  by_cases hf : (entries.find? (fun kv => kv.1 == key)).isSome = true
  · rw [if_pos hf]; simp
  · rw [if_neg hf]; simp

/-- Helper: `_cleanup` only touches the entry map. -/
theorem cleanup_max_size (c : ResponseCache) (now : ℚ) :
    (ResponseCache.cleanup c now).max_size = c.max_size := by
  unfold ResponseCache.cleanup
  dsimp only
  split <;> rfl

/-- Helper: one `set` keeps a capacity-2-or-more cache within its capacity
and keeps the configuration. -/
theorem set_entries_length (hash : String → String) (c : ResponseCache) (now : ℚ)
    (m s p : String) (T : ℚ) (v : String) (tk : Nat) (hm : 2 ≤ c.max_size)
    (hlen : c.entries.length ≤ c.max_size) :
    (ResponseCache.set hash c now m s p T v tk).entries.length ≤ c.max_size ∧
    (ResponseCache.set hash c now m s p T v tk).max_size = c.max_size := by
  unfold ResponseCache.set
  by_cases hk : make_key hash m s p T = ""
  · rw [if_pos hk]; exact ⟨hlen, rfl⟩
  · rw [if_neg hk]
    by_cases hcap : c.entries.length ≥ c.max_size
    · rw [if_pos hcap]
      have hcl := cleanup_length c now hm hlen
      have hins := dictInsert_length (ResponseCache.cleanup c now).entries
        (make_key hash m s p T) { value := v, tokens := tk, timestamp := now }
      constructor
      · dsimp only
        omega
      · dsimp only
        exact cleanup_max_size c now
    · rw [if_neg hcap]
      have hins := dictInsert_length c.entries
        (make_key hash m s p T) { value := v, tokens := tk, timestamp := now }
      constructor
      · dsimp only
        omega
      · dsimp only

/-- Helper: any operation sequence keeps a capacity-2-or-more cache within
its capacity. -/
theorem runCacheOps_length (hash : String → String) (ops : List CacheOp) :
    ∀ c : ResponseCache, 2 ≤ c.max_size → c.entries.length ≤ c.max_size →
      ((runCacheOps hash c ops).entries.length ≤ c.max_size ∧
       (runCacheOps hash c ops).max_size = c.max_size) := by
  induction ops with
  | nil => intro c _ hlen; exact ⟨hlen, rfl⟩
  | cons op rest ih =>
    intro c hm hlen
    cases op with
    | getOp now m s p T =>
      have hg := get_entries_length hash c now m s p T
      have h2 := ih ((ResponseCache.get hash c now m s p T).2)
        (by rw [hg.2]; exact hm) (by rw [hg.2]; exact le_trans hg.1 hlen)
      simp only [runCacheOps]
      rw [hg.2] at h2
      exact h2
    | setOp now m s p T v tk =>
      have hs := set_entries_length hash c now m s p T v tk hm hlen
      have h2 := ih (ResponseCache.set hash c now m s p T v tk)
        (by rw [hs.2]; exact hm) (by rw [hs.2]; exact hs.1)
      simp only [runCacheOps]
      rw [hs.2] at h2
      exact h2

/-- C8 counterexample: with capacity 1, two puts of distinct keys leave the
cache holding 2 entries — the bulk eviction removes `len // 2 = 0` entries,
so the claimed bound "never more than the configured maximum" fails. -/
theorem C8_capacity_one_counterexample :
    (ResponseCache.set (fun s => s)
        (ResponseCache.set (fun s => s) (emptyCache 1 300) 0 "m" "s" "p1" 0 "v1" 1)
        0 "m" "s" "p2" 0 "v2" 1).entries.length = 2 ∧
    (emptyCache 1 300).max_size = 1 := by
  constructor
  · simp +decide [ResponseCache.set, ResponseCache.cleanup, make_key, emptyCache, dictInsert,
      cacheLookup, CacheEntry.is_expired, sortLe, insertLe]
  · rfl

/-- C8 (amended): the put-time eviction policy is as claimed (expired
entries first, then the oldest half), and for every configured capacity of
at least 2 the cache never holds more entries than the capacity over any
sequence of get/put operations; capacity 1 (or 0) is the exception, where
a put can leave the cache over capacity. -/
theorem C8_capacity_bound_amended (hash : String → String) (m : Nat) (ttl : ℚ)
    (ops : List CacheOp) (hm : 2 ≤ m) :
    (runCacheOps hash (emptyCache m ttl) ops).entries.length ≤ m := by
  have h := runCacheOps_length hash ops (emptyCache m ttl) hm (by simp [emptyCache])
  exact h.1

/-- Witness for C8 (amended) on a concrete operation sequence at capacity 2. -/
theorem C8_capacity_bound_witness :
    (runCacheOps (fun s => s) (emptyCache 2 300)
      [CacheOp.setOp 0 "m" "s" "p1" 0 "v1" 1,
       CacheOp.setOp 0 "m" "s" "p2" 0 "v2" 1,
       CacheOp.setOp 0 "m" "s" "p3" 0 "v3" 1,
       CacheOp.getOp 0 "m" "s" "p1" 0]).entries.length ≤ 2 :=
  C8_capacity_bound_amended (fun s => s) 2 300
    [CacheOp.setOp 0 "m" "s" "p1" 0 "v1" 1,
     CacheOp.setOp 0 "m" "s" "p2" 0 "v2" 1,
     CacheOp.setOp 0 "m" "s" "p3" 0 "v3" 1,
     CacheOp.getOp 0 "m" "s" "p1" 0] (by decide)

end MakerCouncil
